import Mathlib

/-!
# Solvitaire: the command-line driver and the solvability estimator

A shallow embedding of `src/main/main.cpp` and
`src/main/input-output/input/command_line_helper.cpp`, with the properties
of the Agresti-Coull interval, the short-solution loop and the option
validation proved over it.

Conventions of the embedding.

* `double` is modelled by `ℝ` (the properties below are stated over exact
  real arithmetic), so the estimator functions are noncomputable.
* `int` values are integers between `-2 ^ 31` and `2 ^ 31 - 1`; the sum of
  two `int`s is reduced to that range explicitly (`int_add`), the value the
  32-bit two's complement targets of the program produce on overflow.
  The limit statement about the interval, which lets the counts grow without
  bound, is stated over the same functions with the sums taken in `ℤ`
  (`sol_lower_bound_unbounded`, `sol_upper_bound_unbounded`); the two agree
  whenever the total of the counts fits an `int`, which is the case for every
  call made by `calculate_solvability_percentage` (its loop stops before
  `INT_MAX`).
* `uint` values are naturals below `2 ^ 32`; `uint` arithmetic is reduced
  modulo `2 ^ 32` explicitly.
-/

namespace Solvitaire

open Filter Topology

/-! ## The estimator: `agrestiCoull`, `sol_lower_bound`, `sol_upper_bound` -/

/-- The argument handed to `sqrt` in `agrestiCoull` (main.cpp line 206):
`(p - pow(p, 2)) / n_` with `n_ = n + pow(z, 2)` and
`p = (x + pow(z, 2) / 2) / n_`. -/
noncomputable def agrestiCoull_radicand (n x : ℤ) (z : ℝ) : ℝ :=
  let n_ : ℝ := (n : ℝ) + z ^ 2
  let p : ℝ := ((x : ℝ) + z ^ 2 / 2) / n_
  (p - p ^ 2) / n_

/-- The function `agrestiCoull(int n, int x, double z, bool lower_bound)` of
main.cpp lines 203-214. -/
noncomputable def agrestiCoull (n x : ℤ) (z : ℝ) (lower_bound : Bool) : ℝ :=
  let n_ : ℝ := (n : ℝ) + z ^ 2
  let p : ℝ := ((x : ℝ) + z ^ 2 / 2) / n_
  let v : ℝ := z * Real.sqrt ((p - p ^ 2) / n_)
  if lower_bound then
    let ans : ℝ := p - v
    if ans < 0 then 0 else ans
  else
    let ans : ℝ := p + v
    if ans > 1 then 1 else ans

/-- The value of an `int` expression whose mathematical value is `v`: `v`
reduced to the range `-2 ^ 31 .. 2 ^ 31 - 1` of a 32-bit two's complement
`int`. -/
def int_wrap (v : ℤ) : ℤ :=
  (v + 2 ^ 31) % 2 ^ 32 - 2 ^ 31

/-- The sum `a + b` of two `int`s as the program computes it. -/
def int_add (a b : ℤ) : ℤ :=
  int_wrap (a + b)

/-- The function `sol_lower_bound(int solvable, int unsolvable, int intractable)`
of main.cpp lines 187-193. -/
noncomputable def sol_lower_bound (solvable unsolvable intractable : ℤ) : ℝ :=
  let n : ℤ := int_add (int_add solvable unsolvable) intractable
  let x : ℤ := solvable
  let z : ℝ := 1.96
  let lower_bound : Bool := true
  agrestiCoull n x z lower_bound

/-- The function `sol_upper_bound(int solvable, int unsolvable, int intractable)`
of main.cpp lines 195-201. -/
noncomputable def sol_upper_bound (solvable unsolvable intractable : ℤ) : ℝ :=
  let n : ℤ := int_add (int_add solvable unsolvable) intractable
  let x : ℤ := int_add solvable intractable
  let z : ℝ := 1.96
  let lower_bound : Bool := false
  agrestiCoull n x z lower_bound

/-- The function `sol_lower_bound` with the sum of the counts taken in `ℤ`,
for counts that grow without bound. It agrees with `sol_lower_bound` whenever
the total fits an `int` (`sol_lower_bound_of_fits`). -/
noncomputable def sol_lower_bound_unbounded (solvable unsolvable intractable : ℤ) : ℝ :=
  let n : ℤ := solvable + unsolvable + intractable
  let x : ℤ := solvable
  let z : ℝ := 1.96
  let lower_bound : Bool := true
  agrestiCoull n x z lower_bound

/-- The function `sol_upper_bound` with the sums of the counts taken in `ℤ`,
for counts that grow without bound. It agrees with `sol_upper_bound` whenever
the total fits an `int` (`sol_upper_bound_of_fits`). -/
noncomputable def sol_upper_bound_unbounded (solvable unsolvable intractable : ℤ) : ℝ :=
  let n : ℤ := solvable + unsolvable + intractable
  let x : ℤ := solvable + intractable
  let z : ℝ := 1.96
  let lower_bound : Bool := false
  agrestiCoull n x z lower_bound

/-- The unclamped one-sided bound `a / N - z * sqrt ((a / N - (a / N) ^ 2) / N)`,
in which `a` is the adjusted count on one side and `N` the adjusted total. -/
noncomputable def acL (a N z : ℝ) : ℝ :=
  a / N - z * Real.sqrt ((a / N - (a / N) ^ 2) / N)

/-! ## The short-solution loop of `solve_game` -/

/-- The options stored by `boost::program_options` after a successful
`store`/`notify` (command_line_helper.cpp lines 69-80): for every option
whether it occurs (`vm.count`) and, if it takes a value, the value. `cores`
is a `uint`, a natural below `2 ^ 32`. -/
structure variables_map where
  help : Bool
  type : Option String
  available_game_types : Bool
  describe_game_rules : Option String
  custom_rules : Option String
  random : Option Int
  classify : Bool
  cache_capacity : Option Nat
  solvability : Option Int
  resume : Option (List Int)
  cores : Option Nat
  benchmark : Bool
  input_files : Option (List String)
  deriving DecidableEq

/-- The data members of `command_line_helper` that `parse` fills in and
`assess_errors` reads. -/
structure command_line_helper where
  help : Bool
  available_game_types : Bool
  describe_game_rules : String
  classify : Bool
  input_files : List String
  solitaire_type : String
  rules_file : String
  random_deal : Int
  cache_capacity : Nat
  solvability : Int
  cores : Nat
  resume : List Int
  benchmark : Bool
  deriving DecidableEq

/-- Conversion of a `uint` to `int`, as done by `resume.push_back(i)`. -/
def uint_to_int (i : Nat) : Int :=
  if i < 2 ^ 31 then (i : Int) else (i : Int) - 2 ^ 32

/-- The default `resume` vector of `parse` (command_line_helper.cpp lines
133-134): `{0, 0, 0}` followed by `i` for `i = 0, ..., cores - 1`. -/
def default_resume (cores : Nat) : List Int :=
  [0, 0, 0] ++ (List.range cores).map uint_to_int

/-- The conversion of the variables map into flags and values done by
`command_line_helper::parse` (command_line_helper.cpp lines 84-138) on a
freshly constructed helper, whose strings and vectors start empty. -/
def parse_fields (vm : variables_map) : command_line_helper :=
  let cores : Nat := match vm.cores with
    | some c => c
    | none => 1
  { help := vm.help
    available_game_types := vm.available_game_types
    describe_game_rules := match vm.describe_game_rules with
      | some s => s
      | none => ""
    classify := vm.classify
    input_files := match vm.input_files with
      | some fs => fs
      | none => []
    solitaire_type := match vm.type with
      | some s => s
      | none => ""
    rules_file := match vm.custom_rules with
      | some s => s
      | none => ""
    random_deal := match vm.random with
      | some r => r
      | none => -1
    cache_capacity := match vm.cache_capacity with
      | some c => c
      | none => 100000000
    solvability := match vm.solvability with
      | some t => t
      | none => -1
    cores := cores
    resume := match vm.resume with
      | some r => r
      | none => default_resume cores
    benchmark := vm.benchmark }

/-- The function `command_line_helper::assess_sol_type` (lines 184-193);
`is_valid_preset` stands for `sol_preset_types::is_valid_preset`, which is not
under src/. -/
def assess_sol_type (is_valid_preset : String → Bool) (clh : command_line_helper) : Bool :=
  if is_valid_preset clh.solitaire_type then true else false

/-- The local `opt_count` of `assess_errors` (line 159). -/
def opt_count (clh : command_line_helper) : Nat :=
  (if clh.random_deal ≠ -1 then 1 else 0)
    + (if !clh.input_files.isEmpty then 1 else 0)
    + (if clh.solvability > 0 then 1 else 0)
    + (if clh.benchmark then 1 else 0)

/-- The function `command_line_helper::assess_errors` (lines 144-181). The
right-hand side `3 + cores` of the resume check is computed in `uint`, hence
modulo `2 ^ 32`, before it is compared with `resume.size()`. -/
def assess_errors (is_valid_preset : String → Bool) (clh : command_line_helper) : Bool :=
  if clh.help then false
  else if clh.available_game_types || !clh.describe_game_rules.isEmpty then true
  else if clh.solvability > 0 && clh.resume.length != (3 + clh.cores) % 2 ^ 32 then false
  else if opt_count clh > 1 then false
  else if opt_count clh < 1 then false
  else if (clh.solitaire_type.isEmpty && clh.rules_file.isEmpty)
      || (!clh.solitaire_type.isEmpty && !clh.rules_file.isEmpty) then false
  else if !clh.solitaire_type.isEmpty then assess_sol_type is_valid_preset clh
  else true

/-- The function `command_line_helper::parse` (lines 68-142): `none` stands
for a command line on which `boost::program_options` throws `po::error`. The
result pairs the returned flag with the helper as `parse` leaves it. -/
def parse (is_valid_preset : String → Bool) (cmdline : Option variables_map) :
    Option (Bool × command_line_helper) :=
  match cmdline with
  | none => none
  | some vm => some (assess_errors is_valid_preset (parse_fields vm), parse_fields vm)

/-- The getter `command_line_helper::get_solvability` (lines 247-249): it
returns the `int` member. -/
def get_solvability (clh : command_line_helper) : Int := clh.solvability

/-- The getter `command_line_helper::get_random_deal` (lines 235-237). -/
def get_random_deal (clh : command_line_helper) : Int := clh.random_deal

/-- The branch `main` ends in (main.cpp lines 32-65). -/
inductive main_action where
  | exit_failure
  | calculate_solvability_percentage
  | solve_random_game (seed : Int) (short_sol : Bool) (classify : Bool)
  | solve_input_files (input_files : List String) (short_sol : Bool) (classify : Bool)
  | assertion_failure
  deriving DecidableEq

/-- The function `main` of main.cpp lines 32-65, up to the call it ends in.
`gen_rules_ok` tells whether `gen_rules` returns a rule set (rules_parser is
not under src/), `short_sols` is the value of `clh.get_short_sols()`, a getter
the helper under src/ does not define. The condition of the first branch is
the `int` returned by `get_solvability` converted to `bool`, true for every
non-zero value. -/
def main (is_valid_preset : String → Bool) (gen_rules_ok : command_line_helper → Bool)
    (short_sols : Bool) (cmdline : Option variables_map) : main_action :=
  match parse is_valid_preset cmdline with
  | none => main_action.exit_failure
  | some (ok, clh) =>
    if !ok then main_action.exit_failure
    else if !gen_rules_ok clh then main_action.exit_failure
    else if get_solvability clh ≠ 0 then main_action.calculate_solvability_percentage
    else if get_random_deal clh ≠ -1 then
      main_action.solve_random_game (get_random_deal clh) short_sols clh.classify
    else if clh.input_files.isEmpty then main_action.assertion_failure
    else main_action.solve_input_files clh.input_files short_sols clh.classify

/-- The number of solving modes supplied on the command line, counted the way
the option table of the specification words it: `--random` given, at least
one input file given, `--solvability` given, `--benchmark` given. -/
def supplied_modes (vm : variables_map) : Nat :=
  (if vm.random.isSome then 1 else 0)
    + (if (match vm.input_files with
          | some fs => !fs.isEmpty
          | none => false) then 1 else 0)
    + (if vm.solvability.isSome then 1 else 0)
    + (if vm.benchmark then 1 else 0)

/-- The number of solving modes the code recognises: a `--random` seed other
than `-1`, at least one input file, a `--solvability` timeout above `0`,
`--benchmark`. -/
def effective_modes (vm : variables_map) : Nat :=
  (if (match vm.random with
        | some r => decide (r ≠ -1)
        | none => false) then 1 else 0)
    + (if (match vm.input_files with
          | some fs => !fs.isEmpty
          | none => false) then 1 else 0)
    + (if (match vm.solvability with
          | some t => decide (t > 0)
          | none => false) then 1 else 0)
    + (if vm.benchmark then 1 else 0)

/-- The command line `--type free-cell --random 5`: a preset type and a
random seed, nothing else. -/
def cmdline_random_only : variables_map :=
  { help := false, type := some "free-cell", available_game_types := false,
    describe_game_rules := none, custom_rules := none, random := some 5,
    classify := false, cache_capacity := none, solvability := none, resume := none,
    cores := none, benchmark := false, input_files := none }

/-- The command line `--type free-cell --solvability 0 deal.json`: a
solvability request with timeout `0` together with an input file. -/
def cmdline_zero_timeout_and_file : variables_map :=
  { help := false, type := some "free-cell", available_game_types := false,
    describe_game_rules := none, custom_rules := none, random := none,
    classify := false, cache_capacity := none, solvability := some 0, resume := none,
    cores := none, benchmark := false, input_files := some ["deal.json"] }

/-- The command line `--type free-cell --random -1 deal.json`: the seed `-1`
together with an input file. -/
def cmdline_seed_minus_one_and_file : variables_map :=
  { help := false, type := some "free-cell", available_game_types := false,
    describe_game_rules := none, custom_rules := none, random := some (-1),
    classify := false, cache_capacity := none, solvability := none, resume := none,
    cores := none, benchmark := false, input_files := some ["deal.json"] }

/-- The command line
`--type free-cell --solvability 1000 --cores 4294967294 --resume 0`. -/
def cmdline_wrapping_cores : variables_map :=
  { help := false, type := some "free-cell", available_game_types := false,
    describe_game_rules := none, custom_rules := none, random := none,
    classify := false, cache_capacity := none, solvability := some 1000,
    resume := some [0], cores := some 4294967294, benchmark := false,
    input_files := none }

/-- The helper state of a plain run `--type free-cell --random 5`. -/
def clh_random_only : command_line_helper := parse_fields cmdline_random_only

/-- The condition of the resume check of `assess_errors` (line 152):
`solvability > 0 && resume.size() != 3 + cores`, with `3 + cores` computed in
`uint`, hence modulo `2 ^ 32`. -/
def resume_length_error (clh : command_line_helper) : Bool :=
  clh.solvability > 0 && clh.resume.length != (3 + clh.cores) % 2 ^ 32

/-- The command line `--type free-cell --solvability 1000 --cores 4294967295`,
without `--resume`: a solvability run on the default resume vector. -/
def cmdline_max_cores : variables_map :=
  { help := false, type := some "free-cell", available_game_types := false,
    describe_game_rules := none, custom_rules := none, random := none,
    classify := false, cache_capacity := none, solvability := some 1000,
    resume := none, cores := some 4294967295, benchmark := false,
    input_files := none }

/-! ## The transposition cache (modelled from the specification)

Only the test `test_helper::run_card_cache_test` is under src/; `card`,
`game_state`, `global_cache`, `hash_value` and `game_state_pred` are not.
The specification describes the equivalence of states and the cache, which
are modelled below; it gives no formula for `hash_value`, only that the hash
agrees on equivalent states, so no hash function is modelled. -/

/-- Modelled from the spec: the build policy of a rule set, whose declaration
(sol_rules.h) is not under src/: the enumeration named in the data model:
build by any suit, by alternate colour, by same suit, rank only. -/
inductive build_policy where
  | any_suit
  | alternate_color
  | same_suit
  | rank_only
  deriving DecidableEq

/-- Modelled from the spec: a card, whose declaration (card.h) is not under
src/: a suit index (0-3) and a rank (1-13), built as `card(suit_idx, rank)`
in the test. -/
structure card where
  suit : Nat
  rank : Nat
  deriving DecidableEq

/-- Modelled from the spec: a game state, whose declaration (game_state.h) is
not under src/: an ordered collection of piles, each an ordered sequence of
cards. The test builds the single-card state as `{{c}}`. -/
abbrev game_state := List (List card)

/-- Modelled from the spec: the canonical build-equivalence class of a suit,
"a rules-dependent grouping (red, black, or any)" used only for cache
equivalence: the exact suit under a policy sensitive to suit, the colour
under the colour policy (by the test, suits `i` and `i + 2` share a colour
and suits `i` and `i + 1` do not), and a single class where the suit is
ignored. -/
def canonical_class (bp : build_policy) (suit : Nat) : Nat :=
  match bp with
  | build_policy.same_suit => suit
  | build_policy.alternate_color => suit % 2
  | build_policy.any_suit => 0
  | build_policy.rank_only => 0

/-- Modelled from the spec: the fingerprint of a state stored by the cache
(game_state.h and global_cache.h are not under src/): every card mapped to
its canonical class, its rank kept, pile structure and positions kept
exactly. -/
def fingerprint (bp : build_policy) (s : game_state) : List (List (Nat × Nat)) :=
  s.map (fun pile => pile.map (fun c => (canonical_class bp c.suit, c.rank)))

/-- Modelled from the spec: the equality predicate
`global_cache::game_state_pred` (global_cache.h is not under src/): two
states are equivalent iff they are indistinguishable after every card is
mapped to its canonical class. -/
def game_state_pred (bp : build_policy) (a b : game_state) : Bool :=
  decide (fingerprint bp a = fingerprint bp b)

/-- Modelled from the spec: the transposition cache `global_cache`
(global_cache.h is not under src/): a bounded-capacity set of
fingerprints. -/
structure global_cache where
  capacity : Nat
  entries : List (List (List (Nat × Nat)))

/-- Modelled from the spec: a freshly constructed cache, empty, with the given
capacity. -/
def global_cache.empty (capacity : Nat) : global_cache :=
  { capacity := capacity, entries := [] }

/-- Modelled from the spec: `contains(state)`, membership up to the
rules-dependent equivalence. -/
def global_cache.contains (bp : build_policy) (cache : global_cache) (s : game_state) : Bool :=
  cache.entries.any (fun e => decide (e = fingerprint bp s))

/-- Modelled from the spec: `insert(state)` records the fingerprint of the
state; at capacity the insert is dropped. -/
def global_cache.insert (bp : build_policy) (cache : global_cache) (s : game_state) :
    global_cache :=
  if cache.contains bp s then cache
  else if cache.entries.length < cache.capacity then
    { cache with entries := fingerprint bp s :: cache.entries }
  else cache

/-! ### Auxiliary analysis of the unclamped bound -/

theorem agrestiCoull_radicand_eq (n x : ℤ) (z : ℝ) :
    agrestiCoull_radicand n x z
      = ((((x : ℝ) + z ^ 2 / 2) / ((n : ℝ) + z ^ 2))
          - (((x : ℝ) + z ^ 2 / 2) / ((n : ℝ) + z ^ 2)) ^ 2) / ((n : ℝ) + z ^ 2) := rfl

theorem agrestiCoull_lower_eq (n x : ℤ) (z : ℝ) :
    agrestiCoull n x z true = max 0 (acL ((x : ℝ) + z ^ 2 / 2) ((n : ℝ) + z ^ 2) z) := by
  simp only [agrestiCoull, acL, if_true]
  split_ifs with h
  · exact (max_eq_left h.le).symm
  · exact (max_eq_right (not_lt.mp h)).symm

theorem agrestiCoull_upper_eq (n x : ℤ) (z : ℝ) (hN : (0 : ℝ) < (n : ℝ) + z ^ 2) :
    agrestiCoull n x z false
      = 1 - max 0 (acL (((n - x : ℤ) : ℝ) + z ^ 2 / 2) ((n : ℝ) + z ^ 2) z) := by
  have hne : ((n : ℝ) + z ^ 2) ≠ 0 := ne_of_gt hN
  have hq : (((n - x : ℤ) : ℝ) + z ^ 2 / 2) / ((n : ℝ) + z ^ 2)
      = 1 - ((x : ℝ) + z ^ 2 / 2) / ((n : ℝ) + z ^ 2) := by
    push_cast
    field_simp
    ring
  simp only [agrestiCoull, acL, Bool.false_eq_true, if_false]
  rw [hq]
  have hr : ∀ p : ℝ, (1 - p) - (1 - p) ^ 2 = p - p ^ 2 := fun p => by ring
  rw [hr]
  split_ifs with h
  · rw [max_eq_left (by linarith)]
    ring
  · rw [max_eq_right (by linarith)]
    ring

theorem acL_le (a N z : ℝ) (hz : 0 ≤ z) : acL a N z ≤ a / N := by
  unfold acL
  have h := mul_nonneg hz (Real.sqrt_nonneg ((a / N - (a / N) ^ 2) / N))
  linarith

theorem acL_factor (a N z : ℝ) (ha : 0 < a) (hN : 0 < N) :
    acL a N z = a / N * (1 - z * Real.sqrt (1 / a - 1 / N)) := by
  have hrad : (a / N - (a / N) ^ 2) / N = (a / N) ^ 2 * (1 / a - 1 / N) := by
    field_simp
    ring
  have hpos : 0 ≤ a / N := (div_pos ha hN).le
  unfold acL
  rw [hrad, Real.sqrt_mul (sq_nonneg _), Real.sqrt_sq hpos]
  ring

theorem acL_max_antitone (a N₁ N₂ z : ℝ) (ha : 0 < a) (h1 : 0 < N₁) (h12 : N₁ ≤ N₂)
    (hz : 0 ≤ z) : max 0 (acL a N₂ z) ≤ max 0 (acL a N₁ z) := by
  have h2 : 0 < N₂ := lt_of_lt_of_le h1 h12
  rw [acL_factor a N₁ z ha h1, acL_factor a N₂ z ha h2]
  have hinv : 1 / N₂ ≤ 1 / N₁ := one_div_le_one_div_of_le h1 h12
  have hsq : Real.sqrt (1 / a - 1 / N₁) ≤ Real.sqrt (1 / a - 1 / N₂) :=
    Real.sqrt_le_sqrt (by linarith)
  have hq : 1 - z * Real.sqrt (1 / a - 1 / N₂) ≤ 1 - z * Real.sqrt (1 / a - 1 / N₁) := by
    have := mul_le_mul_of_nonneg_left hsq hz
    linarith
  have hdiv : a / N₂ ≤ a / N₁ := div_le_div_of_nonneg_left ha.le h1 h12
  have hd1 : 0 ≤ a / N₁ := (div_pos ha h1).le
  have hd2 : 0 ≤ a / N₂ := (div_pos ha h2).le
  rcases le_or_lt (1 - z * Real.sqrt (1 / a - 1 / N₂)) 0 with hneg | hpos
  · have : a / N₂ * (1 - z * Real.sqrt (1 / a - 1 / N₂)) ≤ 0 :=
      mul_nonpos_of_nonneg_of_nonpos hd2 hneg
    rw [max_eq_left this]
    exact le_max_left _ _
  · exact max_le_max le_rfl (mul_le_mul hdiv hq hpos.le hd1)

theorem agrestiCoull_radicand_nonneg (n x : ℤ) (z : ℝ) (hx : 0 ≤ x) (hxn : x ≤ n)
    (hz : 0 < z) : 0 ≤ agrestiCoull_radicand n x z := by
  have hx0 : (0 : ℝ) ≤ (x : ℝ) := by exact_mod_cast hx
  have hxn0 : (x : ℝ) ≤ (n : ℝ) := by exact_mod_cast hxn
  have hz2 : 0 < z ^ 2 := pow_pos hz 2
  have hN : (0 : ℝ) < (n : ℝ) + z ^ 2 := by linarith
  rw [agrestiCoull_radicand_eq]
  have hp0 : 0 ≤ ((x : ℝ) + z ^ 2 / 2) / ((n : ℝ) + z ^ 2) :=
    div_nonneg (by linarith) hN.le
  have hp1 : ((x : ℝ) + z ^ 2 / 2) / ((n : ℝ) + z ^ 2) ≤ 1 := by
    rw [div_le_one hN]
    linarith
  apply div_nonneg _ hN.le
  nlinarith

theorem sol_lower_bound_unbounded_eq (s u i : ℤ) :
    sol_lower_bound_unbounded s u i
      = max 0 (acL ((s : ℝ) + 1.96 ^ 2 / 2) (((s + u + i : ℤ) : ℝ) + 1.96 ^ 2) 1.96) := by
  unfold sol_lower_bound_unbounded
  exact agrestiCoull_lower_eq _ _ _

theorem sol_upper_bound_unbounded_eq (s u i : ℤ) (hs : 0 ≤ s) (hu : 0 ≤ u) (hi : 0 ≤ i) :
    sol_upper_bound_unbounded s u i
      = 1 - max 0 (acL ((u : ℝ) + 1.96 ^ 2 / 2) (((s + u + i : ℤ) : ℝ) + 1.96 ^ 2) 1.96) := by
  unfold sol_upper_bound_unbounded
  have hn : (0 : ℝ) ≤ ((s + u + i : ℤ) : ℝ) := by
    have : 0 ≤ s + u + i := by omega
    exact_mod_cast this
  have hN : (0 : ℝ) < ((s + u + i : ℤ) : ℝ) + 1.96 ^ 2 := by
    have : (0 : ℝ) < 1.96 ^ 2 := by norm_num
    linarith
  have h := agrestiCoull_upper_eq (s + u + i) (s + i) 1.96 hN
  have hsub : s + u + i - (s + i) = u := by ring
  rw [hsub] at h
  exact h

theorem opt_count_parse_fields (vm : variables_map) :
    opt_count (parse_fields vm) = effective_modes vm := by
  rcases vm with ⟨_, _, _, _, _, random, _, _, solvability, _, _, _, input_files⟩
  cases random <;> cases solvability <;> cases input_files <;>
    simp [opt_count, effective_modes, parse_fields]

theorem assess_errors_opt_count (is_valid_preset : String → Bool) (clh : command_line_helper)
    (hh : clh.help = false) (ha : clh.available_game_types = false)
    (hd : clh.describe_game_rules = "") (h : assess_errors is_valid_preset clh = true) :
    opt_count clh = 1 := by
  unfold assess_errors at h
  rw [hh, ha, hd] at h
  simp only [Bool.false_eq_true, if_false, Bool.false_or] at h
  have hemp : ("" : String).isEmpty = true := by decide
  simp only [hemp, Bool.not_true, Bool.false_eq_true, if_false] at h
  split_ifs at h with h1 h2 h3
  all_goals omega

theorem main_of_absent_solvability (is_valid_preset : String → Bool)
    (gen_rules_ok : command_line_helper → Bool) (short_sols : Bool) (vm : variables_map)
    (hs : vm.solvability = none)
    (hparse : assess_errors is_valid_preset (parse_fields vm) = true)
    (hrules : gen_rules_ok (parse_fields vm) = true) :
    main is_valid_preset gen_rules_ok short_sols (some vm)
      = main_action.calculate_solvability_percentage := by
  have hsolv : get_solvability (parse_fields vm) = -1 := by
    simp [get_solvability, parse_fields, hs]
  simp [main, parse, hparse, hrules, hsolv]

theorem assess_errors_type_check (is_valid_preset : String → Bool) (clh : command_line_helper)
    (hh : clh.help = false) (ha : clh.available_game_types = false)
    (hd : clh.describe_game_rules = "") (h : assess_errors is_valid_preset clh = true) :
    (clh.solitaire_type.isEmpty = false ∧ clh.rules_file.isEmpty = true)
      ∨ (clh.solitaire_type.isEmpty = true ∧ clh.rules_file.isEmpty = false) := by
  unfold assess_errors at h
  rw [hh, ha, hd] at h
  have hemp : ("" : String).isEmpty = true := by decide
  simp only [Bool.false_eq_true, if_false, Bool.false_or, hemp, Bool.not_true] at h
  split_ifs at h with h1 h2 h3 h4 h5
  · cases ht : clh.solitaire_type.isEmpty <;> cases hr : clh.rules_file.isEmpty <;>
      simp [ht, hr] at h4 ⊢
  · cases ht : clh.solitaire_type.isEmpty <;> cases hr : clh.rules_file.isEmpty <;>
      simp [ht, hr] at h4 h5 ⊢

theorem assess_errors_resume_in_range (is_valid_preset : String → Bool)
    (clh : command_line_helper) (hh : clh.help = false)
    (ha : clh.available_game_types = false) (hd : clh.describe_game_rules = "")
    (hs : clh.solvability > 0) (hc : 3 + clh.cores < 2 ^ 32)
    (hlen : clh.resume.length ≠ 3 + clh.cores) :
    assess_errors is_valid_preset clh = false := by
  unfold assess_errors
  rw [hh, ha, hd, Nat.mod_eq_of_lt hc]
  have hemp : ("" : String).isEmpty = true := by decide
  simp [hemp, hs, hlen]

/-! ### The default resume vector -/

theorem default_resume_length (cores : Nat) : (default_resume cores).length = 3 + cores := by
  simp only [default_resume, List.length_append, List.length_map, List.length_range,
    List.length_cons, List.length_nil]

theorem default_resume_getElem (cores i : Nat) (h : i < cores) :
    (default_resume cores)[3 + i]? = some (uint_to_int i) := by
  unfold default_resume
  rw [List.getElem?_append_right (by simp)]
  simp [h]

theorem default_resume_in_range (cores : Nat) (h : cores ≤ 2 ^ 31) :
    default_resume cores = [0, 0, 0] ++ (List.range cores).map (fun i : Nat => (i : Int)) := by
  unfold default_resume
  congr 1
  apply List.map_congr_left
  intro i hi
  have hlt : i < 2 ^ 31 := lt_of_lt_of_le (List.mem_range.mp hi) h
  unfold uint_to_int
  rw [if_pos hlt]

theorem assess_errors_of_resume_length_error (is_valid_preset : String → Bool)
    (clh : command_line_helper) (hh : clh.help = false)
    (ha : clh.available_game_types = false) (hd : clh.describe_game_rules = "")
    (h : resume_length_error clh = true) : assess_errors is_valid_preset clh = false := by
  unfold resume_length_error at h
  unfold assess_errors
  rw [hh, ha, hd]
  have hemp : ("" : String).isEmpty = true := by decide
  simp only [Bool.false_eq_true, if_false, Bool.false_or, hemp, Bool.not_true, h, if_true]

theorem resume_length_error_default_in_range (vm : variables_map) (hres : vm.resume = none)
    (hc : 3 + (parse_fields vm).cores < 2 ^ 32) :
    resume_length_error (parse_fields vm) = false := by
  have hlen : (parse_fields vm).resume.length = 3 + (parse_fields vm).cores := by
    simp only [parse_fields, hres]
    exact default_resume_length _
  rw [resume_length_error, hlen, Nat.mod_eq_of_lt hc]
  simp

/-! ### The interval with the sums taken in `ℤ` -/

theorem unbounded_bounds_ordered (solved unsolvable intractable : ℤ)
    (hs : 0 ≤ solved) (hu : 0 ≤ unsolvable) (hi : 0 ≤ intractable) :
    0 ≤ sol_lower_bound_unbounded solved unsolvable intractable
    ∧ sol_lower_bound_unbounded solved unsolvable intractable
        ≤ sol_upper_bound_unbounded solved unsolvable intractable
    ∧ sol_upper_bound_unbounded solved unsolvable intractable ≤ 1
    ∧ 0 ≤ agrestiCoull_radicand (solved + unsolvable + intractable) solved 1.96
    ∧ 0 ≤ agrestiCoull_radicand (solved + unsolvable + intractable)
            (solved + intractable) 1.96 := by
  have hz : (0 : ℝ) < 1.96 := by norm_num
  have hs0 : (0 : ℝ) ≤ (solved : ℝ) := by exact_mod_cast hs
  have hu0 : (0 : ℝ) ≤ (unsolvable : ℝ) := by exact_mod_cast hu
  have hi0 : (0 : ℝ) ≤ (intractable : ℝ) := by exact_mod_cast hi
  have hN : (0 : ℝ) < ((solved + unsolvable + intractable : ℤ) : ℝ) + 1.96 ^ 2 := by
    push_cast
    have : (0 : ℝ) < 1.96 ^ 2 := by norm_num
    linarith
  rw [sol_lower_bound_unbounded_eq, sol_upper_bound_unbounded_eq solved unsolvable intractable hs hu hi]
  refine ⟨le_max_left _ _, ?_, ?_, ?_, ?_⟩
  · have ha : max 0 (acL ((solved : ℝ) + 1.96 ^ 2 / 2)
        (((solved + unsolvable + intractable : ℤ) : ℝ) + 1.96 ^ 2) 1.96)
        ≤ ((solved : ℝ) + 1.96 ^ 2 / 2)
            / ((((solved + unsolvable + intractable : ℤ) : ℝ)) + 1.96 ^ 2) :=
      max_le (div_nonneg (by positivity) hN.le) (acL_le _ _ _ hz.le)
    have hb : max 0 (acL ((unsolvable : ℝ) + 1.96 ^ 2 / 2)
        (((solved + unsolvable + intractable : ℤ) : ℝ) + 1.96 ^ 2) 1.96)
        ≤ ((unsolvable : ℝ) + 1.96 ^ 2 / 2)
            / ((((solved + unsolvable + intractable : ℤ) : ℝ)) + 1.96 ^ 2) :=
      max_le (div_nonneg (by positivity) hN.le) (acL_le _ _ _ hz.le)
    have hsum : ((solved : ℝ) + 1.96 ^ 2 / 2)
            / ((((solved + unsolvable + intractable : ℤ) : ℝ)) + 1.96 ^ 2)
          + ((unsolvable : ℝ) + 1.96 ^ 2 / 2)
            / ((((solved + unsolvable + intractable : ℤ) : ℝ)) + 1.96 ^ 2) ≤ 1 := by
      rw [← add_div, div_le_one hN]
      push_cast
      linarith
    linarith
  · have := le_max_left (0 : ℝ) (acL ((unsolvable : ℝ) + 1.96 ^ 2 / 2)
        (((solved + unsolvable + intractable : ℤ) : ℝ) + 1.96 ^ 2) 1.96)
    linarith
  · exact agrestiCoull_radicand_nonneg _ _ _ hs (by omega) hz
  · exact agrestiCoull_radicand_nonneg _ _ _ (by omega) (by omega) hz

theorem unbounded_width_mono (solved unsolvable intractable : ℤ)
    (hs : 0 ≤ solved) (hu : 0 ≤ unsolvable) (hi : 0 ≤ intractable) :
    sol_upper_bound_unbounded solved unsolvable intractable
        - sol_lower_bound_unbounded solved unsolvable intractable
      ≤ sol_upper_bound_unbounded solved unsolvable (intractable + 1)
        - sol_lower_bound_unbounded solved unsolvable (intractable + 1) := by
  have hz : (0 : ℝ) ≤ 1.96 := by norm_num
  have hs0 : (0 : ℝ) ≤ (solved : ℝ) := by exact_mod_cast hs
  have hu0 : (0 : ℝ) ≤ (unsolvable : ℝ) := by exact_mod_cast hu
  have hi0 : (0 : ℝ) ≤ (intractable : ℝ) := by exact_mod_cast hi
  have hN : (0 : ℝ) < ((solved + unsolvable + intractable : ℤ) : ℝ) + 1.96 ^ 2 := by
    push_cast
    have : (0 : ℝ) < 1.96 ^ 2 := by norm_num
    linarith
  have hNN : ((solved + unsolvable + intractable : ℤ) : ℝ) + 1.96 ^ 2
      ≤ ((solved + unsolvable + (intractable + 1) : ℤ) : ℝ) + 1.96 ^ 2 := by
    push_cast
    linarith
  rw [sol_lower_bound_unbounded_eq, sol_lower_bound_unbounded_eq,
    sol_upper_bound_unbounded_eq solved unsolvable intractable hs hu hi,
    sol_upper_bound_unbounded_eq solved unsolvable (intractable + 1) hs hu (by omega)]
  have h1 := acL_max_antitone ((solved : ℝ) + 1.96 ^ 2 / 2) _ _ 1.96
    (by positivity) hN hNN hz
  have h2 := acL_max_antitone ((unsolvable : ℝ) + 1.96 ^ 2 / 2) _ _ 1.96
    (by positivity) hN hNN hz
  linarith

theorem unbounded_symmetric (k intractable : ℤ)
    (hk : 0 ≤ k) (hi : 0 ≤ intractable) :
    sol_lower_bound_unbounded k k intractable + sol_upper_bound_unbounded k k intractable = 1 := by
  rw [sol_lower_bound_unbounded_eq, sol_upper_bound_unbounded_eq k k intractable hk hk hi]
  ring

/-! ### Sums of `int` counts -/

theorem int_wrap_of_fits (v : ℤ) (h0 : -2147483648 ≤ v) (h1 : v ≤ 2147483647) :
    int_wrap v = v := by
  unfold int_wrap
  omega

theorem int_add_of_fits (a b : ℤ) (ha : 0 ≤ a) (hb : 0 ≤ b) (h : a + b ≤ 2147483647) :
    int_add a b = a + b := by
  unfold int_add
  exact int_wrap_of_fits _ (by omega) h

theorem int_total_of_fits (s u i : ℤ) (hs : 0 ≤ s) (hu : 0 ≤ u) (hi : 0 ≤ i)
    (hfit : s + u + i ≤ 2147483647) : int_add (int_add s u) i = s + u + i := by
  rw [int_add_of_fits s u hs hu (by omega), int_add_of_fits (s + u) i (by omega) hi hfit]

theorem sol_lower_bound_of_fits (s u i : ℤ) (hs : 0 ≤ s) (hu : 0 ≤ u) (hi : 0 ≤ i)
    (hfit : s + u + i ≤ 2147483647) :
    sol_lower_bound s u i = sol_lower_bound_unbounded s u i := by
  unfold sol_lower_bound sol_lower_bound_unbounded
  rw [int_total_of_fits s u i hs hu hi hfit]

theorem sol_upper_bound_of_fits (s u i : ℤ) (hs : 0 ≤ s) (hu : 0 ≤ u) (hi : 0 ≤ i)
    (hfit : s + u + i ≤ 2147483647) :
    sol_upper_bound s u i = sol_upper_bound_unbounded s u i := by
  unfold sol_upper_bound sol_upper_bound_unbounded
  rw [int_total_of_fits s u i hs hu hi hfit, int_add_of_fits s i hs hi (by omega)]

theorem bounds_ordered_of_fits (s u i : ℤ) (hs : 0 ≤ s) (hu : 0 ≤ u) (hi : 0 ≤ i)
    (hfit : s + u + i ≤ 2147483647) :
    0 ≤ sol_lower_bound s u i ∧ sol_lower_bound s u i ≤ sol_upper_bound s u i
      ∧ sol_upper_bound s u i ≤ 1 := by
  rw [sol_lower_bound_of_fits s u i hs hu hi hfit, sol_upper_bound_of_fits s u i hs hu hi hfit]
  have h := unbounded_bounds_ordered s u i hs hu hi
  exact ⟨h.1, h.2.1, h.2.2.1⟩

/-! ### The interval when the total overflows -/

theorem agrestiCoull_of_neg_total (n x : ℤ) (hN : (n : ℝ) + 1.96 ^ 2 ≤ -24)
    (hx0 : 0 ≤ (x : ℝ)) (hx : (x : ℝ) + 1.96 ^ 2 / 2 ≤ -2 * ((n : ℝ) + 1.96 ^ 2)) :
    agrestiCoull n x 1.96 true = 0
    ∧ agrestiCoull n x 1.96 false
        ≤ ((x : ℝ) + 1.96 ^ 2 / 2) / ((n : ℝ) + 1.96 ^ 2) + 0.98 := by
  have hNneg : (n : ℝ) + 1.96 ^ 2 < 0 := by linarith
  have hX : (0 : ℝ) ≤ (x : ℝ) + 1.96 ^ 2 / 2 := by positivity
  have hp0 : ((x : ℝ) + 1.96 ^ 2 / 2) / ((n : ℝ) + 1.96 ^ 2) ≤ 0 :=
    div_nonpos_of_nonneg_of_nonpos hX hNneg.le
  have hp2 : -2 ≤ ((x : ℝ) + 1.96 ^ 2 / 2) / ((n : ℝ) + 1.96 ^ 2) := by
    rw [le_div_iff_of_neg hNneg]
    exact hx
  have hnum : -6 ≤ ((x : ℝ) + 1.96 ^ 2 / 2) / ((n : ℝ) + 1.96 ^ 2)
      - (((x : ℝ) + 1.96 ^ 2 / 2) / ((n : ℝ) + 1.96 ^ 2)) ^ 2 := by nlinarith
  have hnum0 : ((x : ℝ) + 1.96 ^ 2 / 2) / ((n : ℝ) + 1.96 ^ 2)
      - (((x : ℝ) + 1.96 ^ 2 / 2) / ((n : ℝ) + 1.96 ^ 2)) ^ 2 ≤ 0 := by nlinarith
  have hr : (((x : ℝ) + 1.96 ^ 2 / 2) / ((n : ℝ) + 1.96 ^ 2)
      - (((x : ℝ) + 1.96 ^ 2 / 2) / ((n : ℝ) + 1.96 ^ 2)) ^ 2) / ((n : ℝ) + 1.96 ^ 2)
      ≤ (1 / 2) ^ 2 := by
    rw [div_le_iff_of_neg hNneg]
    linarith
  have hsq : Real.sqrt ((((x : ℝ) + 1.96 ^ 2 / 2) / ((n : ℝ) + 1.96 ^ 2)
      - (((x : ℝ) + 1.96 ^ 2 / 2) / ((n : ℝ) + 1.96 ^ 2)) ^ 2) / ((n : ℝ) + 1.96 ^ 2))
      ≤ 1 / 2 := Real.sqrt_le_iff.mpr ⟨by norm_num, hr⟩
  have hsq0 := Real.sqrt_nonneg ((((x : ℝ) + 1.96 ^ 2 / 2) / ((n : ℝ) + 1.96 ^ 2)
      - (((x : ℝ) + 1.96 ^ 2 / 2) / ((n : ℝ) + 1.96 ^ 2)) ^ 2) / ((n : ℝ) + 1.96 ^ 2))
  constructor
  · simp only [agrestiCoull, if_true]
    split_ifs with h
    · rfl
    · nlinarith
  · simp only [agrestiCoull, Bool.false_eq_true, if_false]
    split_ifs with h
    · nlinarith
    · nlinarith

theorem int_total_at_overflow : int_add (int_add 2147483647 1) 0 = -2147483648 := by
  decide

theorem agrestiCoull_lower_at_overflow (x : ℤ) (hx0 : 0 ≤ x) (hx : x ≤ 2147483647) :
    agrestiCoull (-2147483648) x 1.96 true = 0 := by
  have h0 : (0 : ℝ) ≤ (x : ℝ) := by exact_mod_cast hx0
  have h1 : (x : ℝ) ≤ 2147483647 := by exact_mod_cast hx
  refine (agrestiCoull_of_neg_total (-2147483648) x ?_ h0 ?_).1
  · norm_num
  · push_cast
    norm_num
    linarith

theorem agrestiCoull_upper_at_overflow (x : ℤ) (hx0 : 0 ≤ x) (hx : x ≤ 2147483647) :
    agrestiCoull (-2147483648) x 1.96 false
      ≤ ((x : ℝ) + 1.96 ^ 2 / 2) / (((-2147483648 : ℤ) : ℝ) + 1.96 ^ 2) + 0.98 := by
  have h0 : (0 : ℝ) ≤ (x : ℝ) := by exact_mod_cast hx0
  have h1 : (x : ℝ) ≤ 2147483647 := by exact_mod_cast hx
  refine (agrestiCoull_of_neg_total (-2147483648) x ?_ h0 ?_).2
  · norm_num
  · push_cast
    norm_num
    linarith

theorem agrestiCoull_upper_at_overflow_neg :
    agrestiCoull (-2147483648) 2147483647 1.96 false < 0 := by
  have h := agrestiCoull_upper_at_overflow 2147483647 (by decide) (by decide)
  have hp : (((2147483647 : ℤ) : ℝ) + 1.96 ^ 2 / 2) / (((-2147483648 : ℤ) : ℝ) + 1.96 ^ 2)
      + 0.98 < 0 := by
    norm_num
  linarith

theorem agrestiCoull_upper_at_overflow_half :
    agrestiCoull (-2147483648) 1073741824 1.96 false < 1 := by
  have h := agrestiCoull_upper_at_overflow 1073741824 (by decide) (by decide)
  have hp : (((1073741824 : ℤ) : ℝ) + 1.96 ^ 2 / 2) / (((-2147483648 : ℤ) : ℝ) + 1.96 ^ 2)
      + 0.98 < 1 := by
    norm_num
  linarith

/-! ## Claims about the Agresti-Coull interval -/

/-- C1 (as stated) fails: the counts `(2147483647, 1, 0)` are non-negative
`int`s, but their total overflows `int n` to `-2147483648`; the lower bound
is then `0` and the upper bound is negative, so `lower ≤ upper` and
`0 ≤ upper` are both broken. -/
theorem bounds_disordered_on_int_overflow :
    (0 : ℤ) ≤ 2147483647 ∧ (0 : ℤ) ≤ 1 ∧ (0 : ℤ) ≤ 0
    ∧ int_add (int_add 2147483647 1) 0 = -2147483648
    ∧ sol_lower_bound 2147483647 1 0 = 0
    ∧ sol_upper_bound 2147483647 1 0 < 0
    ∧ ¬ (sol_lower_bound 2147483647 1 0 ≤ sol_upper_bound 2147483647 1 0) := by
  have hx : int_add 2147483647 0 = 2147483647 := by decide
  have hl : sol_lower_bound 2147483647 1 0 = 0 := by
    unfold sol_lower_bound
    rw [int_total_at_overflow]
    exact agrestiCoull_lower_at_overflow 2147483647 (by decide) (by decide)
  have hu : sol_upper_bound 2147483647 1 0 < 0 := by
    unfold sol_upper_bound
    rw [int_total_at_overflow, hx]
    exact agrestiCoull_upper_at_overflow_neg
  refine ⟨by decide, by decide, by decide, int_total_at_overflow, hl, hu, ?_⟩
  rw [hl]
  exact not_le.mpr hu

/-- C1 (amended): for non-negative counts whose total
`solved + unsolvable + intractable` fits an `int` (is at most `2147483647`),
the two bounds satisfy `0 ≤ lower ≤ upper ≤ 1`, and the argument of the
square root in `agrestiCoull` is non-negative in both calls. -/
theorem agrestiCoull_bounds_ordered (solved unsolvable intractable : ℤ)
    (hs : 0 ≤ solved) (hu : 0 ≤ unsolvable) (hi : 0 ≤ intractable)
    (hfit : solved + unsolvable + intractable ≤ 2147483647) :
    0 ≤ sol_lower_bound solved unsolvable intractable
    ∧ sol_lower_bound solved unsolvable intractable
        ≤ sol_upper_bound solved unsolvable intractable
    ∧ sol_upper_bound solved unsolvable intractable ≤ 1
    ∧ 0 ≤ agrestiCoull_radicand (int_add (int_add solved unsolvable) intractable)
            solved 1.96
    ∧ 0 ≤ agrestiCoull_radicand (int_add (int_add solved unsolvable) intractable)
            (int_add solved intractable) 1.96 := by
  have h := unbounded_bounds_ordered solved unsolvable intractable hs hu hi
  rw [sol_lower_bound_of_fits solved unsolvable intractable hs hu hi hfit,
    sol_upper_bound_of_fits solved unsolvable intractable hs hu hi hfit,
    int_total_of_fits solved unsolvable intractable hs hu hi hfit,
    int_add_of_fits solved intractable hs hi (by omega)]
  exact h

/-- Witness for the amended C1 at the counts `(10, 10, 0)`. -/
theorem agrestiCoull_bounds_ordered_witness :
    (0 : ℤ) ≤ 10 ∧ (0 : ℤ) ≤ 0 ∧ (10 : ℤ) + 10 + 0 ≤ 2147483647
    ∧ 0 ≤ sol_lower_bound 10 10 0
    ∧ sol_lower_bound 10 10 0 ≤ sol_upper_bound 10 10 0
    ∧ sol_upper_bound 10 10 0 ≤ 1 :=
  have h := agrestiCoull_bounds_ordered 10 10 0 (by decide) (by decide) (by decide)
    (by decide)
  ⟨by decide, by decide, by decide, h.1, h.2.1, h.2.2.1⟩

/-- C2 (as stated) fails: at the non-negative counts `(2147483646, 1, 0)` one
more intractable trial makes the total overflow `int n`, and the width
`upper - lower` falls from a non-negative value to a negative one. -/
theorem width_shrinks_on_int_overflow :
    (0 : ℤ) ≤ 2147483646 ∧ (0 : ℤ) ≤ 1 ∧ (0 : ℤ) ≤ 0
    ∧ sol_upper_bound 2147483646 1 (0 + 1) - sol_lower_bound 2147483646 1 (0 + 1) < 0
    ∧ 0 ≤ sol_upper_bound 2147483646 1 0 - sol_lower_bound 2147483646 1 0
    ∧ sol_upper_bound 2147483646 1 (0 + 1) - sol_lower_bound 2147483646 1 (0 + 1)
        < sol_upper_bound 2147483646 1 0 - sol_lower_bound 2147483646 1 0 := by
  have hn : int_add (int_add 2147483646 1) (0 + 1) = -2147483648 := by decide
  have hx : int_add 2147483646 (0 + 1) = 2147483647 := by decide
  have hl : sol_lower_bound 2147483646 1 (0 + 1) = 0 := by
    unfold sol_lower_bound
    rw [hn]
    exact agrestiCoull_lower_at_overflow 2147483646 (by decide) (by decide)
  have hu : sol_upper_bound 2147483646 1 (0 + 1) < 0 := by
    unfold sol_upper_bound
    rw [hn, hx]
    exact agrestiCoull_upper_at_overflow_neg
  have hb := bounds_ordered_of_fits 2147483646 1 0 (by decide) (by decide) (by decide)
    (by decide)
  have hafter : sol_upper_bound 2147483646 1 (0 + 1) - sol_lower_bound 2147483646 1 (0 + 1)
      < 0 := by
    rw [hl]
    linarith
  have hbefore : 0 ≤ sol_upper_bound 2147483646 1 0 - sol_lower_bound 2147483646 1 0 := by
    linarith [hb.2.1]
  exact ⟨by decide, by decide, by decide, hafter, hbefore, lt_of_lt_of_le hafter hbefore⟩

/-- C2 (amended): for non-negative counts whose total after the extra trial,
`solved + unsolvable + (intractable + 1)`, fits an `int` (is at most
`2147483647`), one more intractable trial with the solved and unsolvable
counts fixed does not decrease the width `upper - lower` of the interval. -/
theorem interval_width_mono_intractable (solved unsolvable intractable : ℤ)
    (hs : 0 ≤ solved) (hu : 0 ≤ unsolvable) (hi : 0 ≤ intractable)
    (hfit : solved + unsolvable + (intractable + 1) ≤ 2147483647) :
    sol_upper_bound solved unsolvable intractable
        - sol_lower_bound solved unsolvable intractable
      ≤ sol_upper_bound solved unsolvable (intractable + 1)
        - sol_lower_bound solved unsolvable (intractable + 1) := by
  rw [sol_lower_bound_of_fits solved unsolvable intractable hs hu hi (by omega),
    sol_upper_bound_of_fits solved unsolvable intractable hs hu hi (by omega),
    sol_lower_bound_of_fits solved unsolvable (intractable + 1) hs hu (by omega) hfit,
    sol_upper_bound_of_fits solved unsolvable (intractable + 1) hs hu (by omega) hfit]
  exact unbounded_width_mono solved unsolvable intractable hs hu hi

/-- Witness for the amended C2 at the counts `(3, 2, 1)`. -/
theorem interval_width_mono_intractable_witness :
    (0 : ℤ) ≤ 3 ∧ (0 : ℤ) ≤ 2 ∧ (0 : ℤ) ≤ 1 ∧ (3 : ℤ) + 2 + (1 + 1) ≤ 2147483647
    ∧ sol_upper_bound 3 2 1 - sol_lower_bound 3 2 1
        ≤ sol_upper_bound 3 2 (1 + 1) - sol_lower_bound 3 2 (1 + 1) :=
  ⟨by decide, by decide, by decide, by decide,
    interval_width_mono_intractable 3 2 1 (by decide) (by decide) (by decide) (by decide)⟩

/-- C3 (as stated) fails: at the equal counts `k = 1073741824` with no
intractable trial the total `2 * k` overflows `int n` to `-2147483648`; the
lower bound is `0` and the upper bound is below `1`, so `lower + upper` is
not `1`. -/
theorem asymmetric_on_int_overflow :
    (0 : ℤ) ≤ 1073741824 ∧ (0 : ℤ) ≤ 0
    ∧ int_add (int_add 1073741824 1073741824) 0 = -2147483648
    ∧ sol_lower_bound 1073741824 1073741824 0 = 0
    ∧ sol_lower_bound 1073741824 1073741824 0 + sol_upper_bound 1073741824 1073741824 0
        ≠ 1 := by
  have hn : int_add (int_add 1073741824 1073741824) 0 = -2147483648 := by decide
  have hx : int_add 1073741824 0 = 1073741824 := by decide
  have hl : sol_lower_bound 1073741824 1073741824 0 = 0 := by
    unfold sol_lower_bound
    rw [hn]
    exact agrestiCoull_lower_at_overflow 1073741824 (by decide) (by decide)
  have hu : sol_upper_bound 1073741824 1073741824 0 < 1 := by
    unfold sol_upper_bound
    rw [hn, hx]
    exact agrestiCoull_upper_at_overflow_half
  refine ⟨by decide, by decide, hn, hl, ?_⟩
  rw [hl, zero_add]
  exact ne_of_lt hu

/-- C3 (amended): with equal solved and unsolvable counts `k` and a total
`k + k + intractable` that fits an `int` (is at most `2147483647`), the
interval is symmetric around one half: `lower + upper = 1`. -/
theorem interval_symmetric_of_equal_counts (k intractable : ℤ)
    (hk : 0 ≤ k) (hi : 0 ≤ intractable) (hfit : k + k + intractable ≤ 2147483647) :
    sol_lower_bound k k intractable + sol_upper_bound k k intractable = 1 := by
  rw [sol_lower_bound_of_fits k k intractable hk hk hi hfit,
    sol_upper_bound_of_fits k k intractable hk hk hi hfit]
  exact unbounded_symmetric k intractable hk hi

/-- Witness for the amended C3 at the counts `(10, 10, 0)` named by the
specification. -/
theorem interval_symmetric_of_equal_counts_witness :
    (0 : ℤ) ≤ 10 ∧ (0 : ℤ) ≤ 0 ∧ (10 : ℤ) + 10 + 0 ≤ 2147483647
    ∧ sol_lower_bound 10 10 0 + sol_upper_bound 10 10 0 = 1 :=
  ⟨by decide, by decide, by decide,
    interval_symmetric_of_equal_counts 10 0 (by decide) (by decide) (by decide)⟩

/-- C5 (the code at its failing input): on `--type free-cell --random 5`,
a command line `parse` accepts, with a seed and without `--solvability`,
`main` calls `calculate_solvability_percentage` and not `solve_random_game`:
the member `solvability` holds the sentinel `-1`, which the condition
`if (clh.get_solvability())` takes for true. -/
theorem main_random_seed_runs_estimator :
    cmdline_random_only.random = some 5
    ∧ cmdline_random_only.solvability = none
    ∧ parse (fun _ => true) (some cmdline_random_only)
        = some (true, parse_fields cmdline_random_only)
    ∧ get_solvability (parse_fields cmdline_random_only) = -1
    ∧ main (fun _ => true) (fun _ => true) false (some cmdline_random_only)
        = main_action.calculate_solvability_percentage
    ∧ main (fun _ => true) (fun _ => true) false (some cmdline_random_only)
        ≠ main_action.solve_random_game 5 false false := by
  decide

/-- C6 (as stated) fails: `parse` accepts `--solvability 0` together with an
input file, and `--random -1` together with an input file, although two of
the four solving modes are supplied in each. -/
theorem assess_errors_accepts_two_modes :
    (supplied_modes cmdline_zero_timeout_and_file = 2
      ∧ cmdline_zero_timeout_and_file.help = false
      ∧ cmdline_zero_timeout_and_file.available_game_types = false
      ∧ cmdline_zero_timeout_and_file.describe_game_rules = none
      ∧ assess_errors (fun _ => true) (parse_fields cmdline_zero_timeout_and_file) = true)
    ∧ (supplied_modes cmdline_seed_minus_one_and_file = 2
      ∧ cmdline_seed_minus_one_and_file.help = false
      ∧ cmdline_seed_minus_one_and_file.available_game_types = false
      ∧ cmdline_seed_minus_one_and_file.describe_game_rules = none
      ∧ assess_errors (fun _ => true) (parse_fields cmdline_seed_minus_one_and_file) = true) := by
  decide

/-- C6 (amended): when help, available-game-types and describe-game-rules are
not requested, `assess_errors` returns true only if exactly one of these
holds: a `--random` seed other than `-1` is supplied, at least one input file
is supplied, a `--solvability` timeout above `0` is supplied, `--benchmark` is
supplied; it returns false whenever none or more than one of them holds. -/
theorem assess_errors_exactly_one_mode (is_valid_preset : String → Bool) (vm : variables_map)
    (hh : vm.help = false) (ha : vm.available_game_types = false)
    (hd : vm.describe_game_rules = none) :
    (assess_errors is_valid_preset (parse_fields vm) = true → effective_modes vm = 1)
    ∧ (effective_modes vm ≠ 1 → assess_errors is_valid_preset (parse_fields vm) = false) := by
  have key : assess_errors is_valid_preset (parse_fields vm) = true → effective_modes vm = 1 := by
    intro h
    rw [← opt_count_parse_fields]
    refine assess_errors_opt_count is_valid_preset (parse_fields vm) ?_ ?_ ?_ h
    · simp [parse_fields, hh]
    · simp [parse_fields, ha]
    · simp [parse_fields, hd]
  refine ⟨key, fun hne => ?_⟩
  cases hv : assess_errors is_valid_preset (parse_fields vm)
  · rfl
  · exact absurd (key hv) hne

/-- Witness for the amended C6 at `--type free-cell --random 5`. -/
theorem assess_errors_exactly_one_mode_witness :
    cmdline_random_only.help = false
    ∧ assess_errors (fun _ => true) (parse_fields cmdline_random_only) = true
    ∧ effective_modes cmdline_random_only = 1 :=
  ⟨rfl, by decide,
    (assess_errors_exactly_one_mode (fun _ => true) cmdline_random_only rfl rfl rfl).1
      (by decide)⟩

/-- C7: when help, available-game-types and describe-game-rules are not
requested, `assess_errors` returns false when both a solitaire type and a
rules file are supplied, returns false when neither is supplied, and so
returns true only if exactly one of the two is supplied. As in the source,
a value is supplied when the member (`solitaire_type`, `rules_file`) is not
the empty string. -/
theorem assess_errors_type_xor_rules (is_valid_preset : String → Bool)
    (clh : command_line_helper) (hh : clh.help = false)
    (ha : clh.available_game_types = false) (hd : clh.describe_game_rules = "") :
    (clh.solitaire_type ≠ "" ∧ clh.rules_file ≠ "" →
        assess_errors is_valid_preset clh = false)
    ∧ (clh.solitaire_type = "" ∧ clh.rules_file = "" →
        assess_errors is_valid_preset clh = false)
    ∧ (assess_errors is_valid_preset clh = true →
        (clh.solitaire_type ≠ "" ∧ clh.rules_file = "")
          ∨ (clh.solitaire_type = "" ∧ clh.rules_file ≠ "")) := by
  have key : assess_errors is_valid_preset clh = true →
      (clh.solitaire_type ≠ "" ∧ clh.rules_file = "")
        ∨ (clh.solitaire_type = "" ∧ clh.rules_file ≠ "") := by
    intro h
    rcases assess_errors_type_check is_valid_preset clh hh ha hd h with ⟨h1, h2⟩ | ⟨h1, h2⟩
    · left
      refine ⟨fun he => ?_, (String.isEmpty_iff _).mp h2⟩
      rw [(String.isEmpty_iff _).mpr he] at h1
      exact absurd h1 (by decide)
    · right
      refine ⟨(String.isEmpty_iff _).mp h1, fun he => ?_⟩
      rw [(String.isEmpty_iff _).mpr he] at h2
      exact absurd h2 (by decide)
  refine ⟨fun hboth => ?_, fun hnone => ?_, key⟩
  · cases hv : assess_errors is_valid_preset clh
    · rfl
    · rcases key hv with ⟨_, h2⟩ | ⟨h1, _⟩
      · exact absurd h2 hboth.2
      · exact absurd h1 hboth.1
  · cases hv : assess_errors is_valid_preset clh
    · rfl
    · rcases key hv with ⟨h1, _⟩ | ⟨_, h2⟩
      · exact absurd hnone.1 h1
      · exact absurd hnone.2 h2

/-- Witness for C7 at the helper state of `--type free-cell --random 5`. -/
theorem assess_errors_type_xor_rules_witness :
    clh_random_only.help = false
    ∧ assess_errors (fun _ => true) clh_random_only = true
    ∧ ((clh_random_only.solitaire_type ≠ "" ∧ clh_random_only.rules_file = "")
        ∨ (clh_random_only.solitaire_type = "" ∧ clh_random_only.rules_file ≠ "")) :=
  ⟨rfl, by decide,
    (assess_errors_type_xor_rules (fun _ => true) clh_random_only rfl rfl rfl).2.2
      (by decide)⟩

/-- C8 (the code at its failing input): on
`--type free-cell --solvability 1000 --cores 4294967294 --resume 0`
solvability mode is requested and `resume` has one entry, not `3 + cores`
entries, yet `assess_errors` returns true: `3 + cores` wraps to `1` in
`uint` arithmetic. -/
theorem assess_errors_resume_wraps :
    (parse_fields cmdline_wrapping_cores).solvability = 1000
    ∧ (parse_fields cmdline_wrapping_cores).cores = 4294967294
    ∧ (parse_fields cmdline_wrapping_cores).cores < 2 ^ 32
    ∧ (parse_fields cmdline_wrapping_cores).resume.length = 1
    ∧ (parse_fields cmdline_wrapping_cores).resume.length
        ≠ 3 + (parse_fields cmdline_wrapping_cores).cores
    ∧ assess_errors (fun _ => true) (parse_fields cmdline_wrapping_cores) = true := by
  decide

/-- C11 (the code at its failing input): on
`--type free-cell --solvability 1000 --cores 4294967295`, without `--resume`,
`parse` builds the default resume vector, which has its `3 + cores` entries;
the resume check of `assess_errors` compares that length with `3 + cores`
wrapped to `2` in `uint` arithmetic and rejects the run. Moreover the entry
for worker `2147483648` is `-2147483648`, the `uint` counter converted to
`int`, not the seed offset `2147483648`. -/
theorem default_resume_rejected_at_max_cores :
    cmdline_max_cores.resume = none
    ∧ (parse_fields cmdline_max_cores).solvability = 1000
    ∧ (parse_fields cmdline_max_cores).cores = 4294967295
    ∧ (parse_fields cmdline_max_cores).cores < 2 ^ 32
    ∧ (parse_fields cmdline_max_cores).resume = default_resume 4294967295
    ∧ (parse_fields cmdline_max_cores).resume.length = 3 + 4294967295
    ∧ resume_length_error (parse_fields cmdline_max_cores) = true
    ∧ assess_errors (fun _ => true) (parse_fields cmdline_max_cores) = false
    ∧ (parse_fields cmdline_max_cores).resume[3 + 2147483648]? = some (-2147483648) := by
  have hs : (parse_fields cmdline_max_cores).solvability = 1000 := rfl
  have hc : (parse_fields cmdline_max_cores).cores = 4294967295 := rfl
  have hr : (parse_fields cmdline_max_cores).resume = default_resume 4294967295 := rfl
  have hlen : (parse_fields cmdline_max_cores).resume.length = 3 + 4294967295 := by
    rw [hr]
    exact default_resume_length 4294967295
  have herr : resume_length_error (parse_fields cmdline_max_cores) = true := by
    unfold resume_length_error
    rw [hs, hc, hlen]
    decide
  refine ⟨rfl, hs, hc, ?_, hr, hlen, herr, ?_, ?_⟩
  · rw [hc]
    decide
  · exact assess_errors_of_resume_length_error _ _ rfl rfl rfl herr
  · rw [hr, default_resume_getElem 4294967295 2147483648 (by decide)]
    decide

/-! ## The transposition cache: states that differ in rank -/

/-- On the cache modelled from the specification, under every build policy
and for every suit and rank, the single-card state holding `(suit, rank)` and
the one holding `(suit, rank mod 13 + 1)` are not equivalent, and a cache (of
capacity at least one) into which the first was inserted when empty contains
the first and not the second. Nothing is said about `hash_value`. -/
theorem rank_change_not_equivalent (bp : build_policy) (capacity suit rank : Nat)
    (hcap : 1 ≤ capacity) :
    game_state_pred bp [[⟨suit, rank⟩]] [[⟨suit, rank % 13 + 1⟩]] = false
    ∧ ((global_cache.empty capacity).insert bp [[⟨suit, rank⟩]]).contains bp
        [[⟨suit, rank⟩]] = true
    ∧ ((global_cache.empty capacity).insert bp [[⟨suit, rank⟩]]).contains bp
        [[⟨suit, rank % 13 + 1⟩]] = false := by
  have hne : rank ≠ rank % 13 + 1 := by omega
  have hcap0 : 0 < capacity := hcap
  refine ⟨?_, ?_, ?_⟩
  · simp [game_state_pred, fingerprint, hne]
  · simp [global_cache.insert, global_cache.contains, global_cache.empty, hcap0]
  · simp [global_cache.insert, global_cache.contains, global_cache.empty, hcap0,
      fingerprint, hne]

end Solvitaire
